import Mathlib

/-!
Verification of the RV64_PPAC build driver
(`src/tvm/src/codegen/ppac/build_rv64_ppac.cc`, function `BuildRV64PPAC`).

The driver sequences an argument-type analysis pass (`CodeAnalysis`) and a
code-generation pass (`CodeGenRV64PPAC`) over an ordered set of lowered
functions, returns the generated text, and logs a fixed advisory warning.
The driver itself is embedded from the source; the two collaborators are
not part of this translation unit and are modelled from their documented
contracts.  Every collaborator interaction of the driver is recorded in an
explicit event trace so that call-ordering properties can be stated.
-/

/-- Modelled from the spec: a concrete scalar type of the lowered IR
(`Type` in the source: a type code together with a bit width and lane
count).  Two types are compatible exactly when they are equal. -/
structure Ty where
  code : Nat
  bits : Nat
  lanes : Nat
deriving DecidableEq, Repr

/-- Modelled from the spec: one IR construct of a function body.  The
Code Generator can translate `supported` constructs and signals an
unsupported-construct failure on `unsupported` ones. -/
inductive Constr where
  | supported (text : String)
  | unsupported (tag : String)
deriving DecidableEq, Repr

/-- Modelled from the spec: a Lowered Function IR value: a name, an
ordered parameter list (argument identity paired with its declared type)
and a body given as a sequence of IR constructs. -/
structure LoweredFunc where
  name : String
  args : List (String × Ty)
  body : List Constr
deriving DecidableEq, Repr

/-- Modelled from the spec: the resolution failure of the Argument Type
Analyzer, raised when one argument identity is observed with two
incompatible types. -/
inductive AnalyzerErr where
  | inconsistentArgType (ident : String)
deriving DecidableEq, Repr

/-- Modelled from the spec: the translation failure of the Code
Generator, raised on an IR construct with no target-language
translation. -/
inductive GenErr where
  | unsupportedConstruct (tag : String)
deriving DecidableEq, Repr

/-- Modelled from the spec: state of the Argument Type Analyzer
(`CodeAnalysis` in the source): the argument-identity-to-type map
accumulated over all functions registered so far. -/
structure CodeAnalysis where
  map_arg_type : List (String × Ty)
deriving DecidableEq, Repr

/-- Modelled from the spec: merge one function's argument list into the
accumulated map.  A fresh identity is appended; a known identity with an
equal type is kept; a known identity with a different type raises the
inconsistent-argument-type failure. -/
def mergeArgs : List (String × Ty) → List (String × Ty) → Except AnalyzerErr (List (String × Ty))
  | m, [] => Except.ok m
  | m, a :: rest =>
    match m.lookup a.1 with
    | some t => if t = a.2 then mergeArgs m rest else Except.error (AnalyzerErr.inconsistentArgType a.1)
    | none => mergeArgs (m ++ [a]) rest

/-- Modelled from the spec: `CodeAnalysis::AddFunction`: registers one
function's argument usages, mutating the accumulated map. -/
def CodeAnalysis.AddFunction (ca : CodeAnalysis) (f : LoweredFunc) : Except AnalyzerErr CodeAnalysis :=
  (mergeArgs ca.map_arg_type f.args).map (fun m => ⟨m⟩)

/-- Modelled from the spec: `CodeAnalysis::Finish`: returns the current
finalized Argument Type Map, reflecting all functions registered so
far. -/
def CodeAnalysis.Finish (ca : CodeAnalysis) : List (String × Ty) :=
  ca.map_arg_type

/-- Modelled from the spec: target-text rendering of one type. -/
def tyText (t : Ty) : String :=
  "t" ++ toString t.code ++ "_" ++ toString t.bits ++ "x" ++ toString t.lanes

/-- Modelled from the spec: rendering of one argument of a function
declaration; the supplied type mapping resolves the argument's type. -/
def argText (m : List (String × Ty)) (a : String × Ty) : String :=
  match m.lookup a.1 with
  | some t => tyText t ++ " " ++ a.1 ++ ", "
  | none => "auto " ++ a.1 ++ ", "

/-- Modelled from the spec: rendering of a function's declaration using
the supplied type mapping. -/
def declText (f : LoweredFunc) (m : List (String × Ty)) : String :=
  "void " ++ f.name ++ "(" ++ String.join (f.args.map (argText m)) ++ ")\n"

/-- Modelled from the spec: translation of one IR construct; an
`unsupported` construct has no target-language translation. -/
def translateConstr : Constr → Except GenErr String
  | Constr.supported s => Except.ok s
  | Constr.unsupported tag => Except.error (GenErr.unsupportedConstruct tag)

/-- Modelled from the spec: translation of a function body, construct by
construct, failing on the first untranslatable construct. -/
def translateBody : List Constr → Except GenErr String
  | [] => Except.ok ""
  | c :: rest =>
    match translateConstr c with
    | Except.error e => Except.error e
    | Except.ok s => (translateBody rest).map (fun b => s ++ b)

/-- Modelled from the spec: translation of one whole function (its
declaration, resolved through the supplied type mapping, followed by its
translated body). -/
def translateFunc (f : LoweredFunc) (m : List (String × Ty)) : Except GenErr String :=
  (translateBody f.body).map (fun b => declText f m ++ b ++ "end " ++ f.name ++ "\n")

/-- Modelled from the spec: state of the Code Generator
(`CodeGenRV64PPAC` in the source): the accumulated output text. -/
structure CodeGenRV64PPAC where
  stream : String
deriving DecidableEq, Repr

/-- Modelled from the spec: `CodeGenRV64PPAC::AddFunction`: translates
one function using the supplied type mapping and appends the result to
the accumulated output. -/
def CodeGenRV64PPAC.AddFunction (cg : CodeGenRV64PPAC) (f : LoweredFunc)
    (m : List (String × Ty)) : Except GenErr CodeGenRV64PPAC :=
  match translateFunc f m with
  | Except.error e => Except.error e
  | Except.ok s => Except.ok ⟨cg.stream ++ s⟩

/-- Modelled from the spec: `CodeGenRV64PPAC::Finish`: returns the full
accumulated text since the Generator's creation. -/
def CodeGenRV64PPAC.Finish (cg : CodeGenRV64PPAC) : String :=
  cg.stream

/-- A build failure: either collaborator's failure, propagated unchanged
by the driver. -/
inductive BuildErr where
  | analyzer (e : AnalyzerErr)
  | generator (e : GenErr)
deriving DecidableEq, Repr

/-- One observable driver action: a collaborator call (with its payload)
or the advisory log message.  The trace records them in execution
order. -/
inductive Event where
  | caAdd (f : LoweredFunc)
  | caFinish (m : List (String × Ty))
  | cgAdd (f : LoweredFunc) (m : List (String × Ty))
  | cgFinish (code : String)
  | logWarning (msg : String)
deriving DecidableEq, Repr

/-- The advisory diagnostic text of the driver (source line
`LOG(WARNING) << "RV64_PPAC backend doesn't have runtime, return kernel code";`). -/
def warnMsg : String :=
  "RV64_PPAC backend doesn't have runtime, return kernel code"

/-- The driver's loop and epilogue, embedded from the source of
`BuildRV64PPAC`: for each function, `ca.AddFunction(f)`, then
`map_arg_type = ca.Finish()`, then `cg.AddFunction(f, map_arg_type)`;
after the loop `code = cg.Finish()`, the advisory warning, and
`return code`.  A collaborator failure aborts immediately and propagates
unchanged.  The first component is the trace of events, the second the
driver's result. -/
def buildGo (ca : CodeAnalysis) (cg : CodeGenRV64PPAC) (fs : List LoweredFunc)
    (tr : List Event) : List Event × Except BuildErr String :=
  match fs with
  | [] =>
    let code := cg.Finish
    (tr ++ [Event.cgFinish code, Event.logWarning warnMsg], Except.ok code)
  | f :: rest =>
    match ca.AddFunction f with
    | Except.error e => (tr ++ [Event.caAdd f], Except.error (BuildErr.analyzer e))
    | Except.ok ca' =>
      let m := ca'.Finish
      match cg.AddFunction f m with
      | Except.error e =>
        (tr ++ [Event.caAdd f, Event.caFinish m], Except.error (BuildErr.generator e))
      | Except.ok cg' =>
        buildGo ca' cg' rest (tr ++ [Event.caAdd f, Event.caFinish m, Event.cgAdd f m])

/-- Embedded from the source: `BuildRV64PPAC` constructs a fresh
`CodeAnalysis` and a fresh `CodeGenRV64PPAC` and runs the loop over the
function set. -/
def BuildRV64PPAC (funcs : List LoweredFunc) : List Event × Except BuildErr String :=
  buildGo ⟨[]⟩ ⟨""⟩ funcs []

/-- Recognizer for Analyzer-registration events. -/
def isCaAdd : Event → Bool
  | Event.caAdd _ => true
  | _ => false

/-- Recognizer for Analyzer-`Finish` events. -/
def isCaFinish : Event → Bool
  | Event.caFinish _ => true
  | _ => false

/-- Recognizer for Generator-`AddFunction` events. -/
def isCgAdd : Event → Bool
  | Event.cgAdd _ _ => true
  | _ => false

/-- Recognizer for Generator-`Finish` events. -/
def isCgFinish : Event → Bool
  | Event.cgFinish _ => true
  | _ => false

/-- Recognizer for the advisory diagnostic event. -/
def isLogWarning : Event → Bool
  | Event.logWarning _ => true
  | _ => false

/-- Whether a build result is a success. -/
def isOkB : Except BuildErr String → Bool
  | Except.ok _ => true
  | Except.error _ => false

/-- Pure analysis of a function list starting from a given Analyzer
state: the fold of `CodeAnalysis.AddFunction`. -/
def analyzeFrom (ca : CodeAnalysis) : List LoweredFunc → Except AnalyzerErr CodeAnalysis
  | [] => Except.ok ca
  | f :: rest =>
    match ca.AddFunction f with
    | Except.error e => Except.error e
    | Except.ok ca' => analyzeFrom ca' rest

/-- The per-function text pieces the spec describes: function `i`'s
piece is its translation under the Analyzer snapshot taken right after
its registration; a collaborator failure aborts the list. -/
def specPieces (ca : CodeAnalysis) : List LoweredFunc → Except BuildErr (List String)
  | [] => Except.ok []
  | f :: rest =>
    match ca.AddFunction f with
    | Except.error e => Except.error (BuildErr.analyzer e)
    | Except.ok ca' =>
      match translateFunc f ca'.Finish with
      | Except.error e => Except.error (BuildErr.generator e)
      | Except.ok s => (specPieces ca' rest).map (fun ps => s :: ps)

/-- The events of one successful loop iteration for `f` from Analyzer
state `ca`. -/
def okLoopTrace (ca : CodeAnalysis) : List LoweredFunc → List Event
  | [] => []
  | f :: rest =>
    match ca.AddFunction f with
    | Except.error _ => []
    | Except.ok ca' =>
      Event.caAdd f :: Event.caFinish ca'.Finish :: Event.cgAdd f ca'.Finish ::
        okLoopTrace ca' rest

/-- The Generator-`AddFunction` calls recorded in a trace: the function
and the type map passed, in call order. -/
def cgAddEvents (tr : List Event) : List (LoweredFunc × List (String × Ty)) :=
  tr.filterMap (fun e =>
    match e with
    | Event.cgAdd f m => some (f, m)
    | _ => none)

theorem buildGo_append (fs : List LoweredFunc) : ∀ ca cg tr,
    buildGo ca cg fs tr = (tr ++ (buildGo ca cg fs []).1, (buildGo ca cg fs []).2) := by
  induction fs with
  | nil => intro ca cg tr; simp [buildGo]
  | cons f rest ih =>
    intro ca cg tr
    simp only [buildGo]
    cases h1 : ca.AddFunction f with
    | error e => simp
    | ok ca' =>
      cases h2 : cg.AddFunction f ca'.Finish with
      | error e => simp [h2]
      | ok cg' =>
        simp only [h2, List.nil_append]
        rw [ih ca' cg' (tr ++ [Event.caAdd f, Event.caFinish ca'.Finish, Event.cgAdd f ca'.Finish]),
           ih ca' cg' ([Event.caAdd f, Event.caFinish ca'.Finish, Event.cgAdd f ca'.Finish])]
        simp

theorem join_cons (s : String) (l : List String) :
    String.join (s :: l) = s ++ String.join l := by
  rw [String.ext_iff]
  simp [String.join_eq, String.data_append]

theorem buildGo_spec (fs : List LoweredFunc) : ∀ ca cg tr,
    (buildGo ca cg fs tr).2
      = (specPieces ca fs).map (fun ps => cg.stream ++ String.join ps) := by
  induction fs with
  | nil =>
    intro ca cg tr
    have hj : String.join ([] : List String) = "" := rfl
    simp [buildGo, specPieces, CodeGenRV64PPAC.Finish, Except.map, hj, String.append_empty]
  | cons f rest ih =>
    intro ca cg tr
    simp only [buildGo, specPieces]
    cases h1 : ca.AddFunction f with
    | error e => simp [h1, Except.map]
    | ok ca' =>
      simp only [h1, CodeGenRV64PPAC.AddFunction]
      cases h2 : translateFunc f ca'.Finish with
      | error e => simp [h2, Except.map]
      | ok s =>
        simp only [h2]
        rw [ih ca' ⟨cg.stream ++ s⟩
          (tr ++ [Event.caAdd f, Event.caFinish ca'.Finish, Event.cgAdd f ca'.Finish])]
        cases h3 : specPieces ca' rest with
        | error e => simp [Except.map]
        | ok ps => simp [Except.map, join_cons, String.append_assoc]

theorem specPieces_ok (fs : List LoweredFunc) : ∀ ca ps, specPieces ca fs = Except.ok ps →
    ps.length = fs.length ∧
    ∀ i, i < fs.length →
      ∃ f ca' p, fs[i]? = some f ∧ analyzeFrom ca (fs.take (i+1)) = Except.ok ca' ∧
        translateFunc f ca'.Finish = Except.ok p ∧ ps[i]? = some p := by
  induction fs with
  | nil =>
    intro ca ps h
    simp only [specPieces, Except.ok.injEq] at h
    subst h
    exact ⟨rfl, fun i hi => absurd hi (by simp)⟩
  | cons f rest ih =>
    intro ca ps h
    cases h1 : ca.AddFunction f with
    | error e => simp [specPieces, h1] at h
    | ok ca' =>
      cases h2 : translateFunc f ca'.Finish with
      | error e => simp [specPieces, h1, h2] at h
      | ok s =>
        cases h3 : specPieces ca' rest with
        | error e => simp [specPieces, h1, h2, h3, Except.map] at h
        | ok ps' =>
          simp only [specPieces, h1, h2, h3, Except.map, Except.ok.injEq] at h
          subst h
          obtain ⟨hlen, hidx⟩ := ih ca' ps' h3
          refine ⟨by simp [hlen], ?_⟩
          intro i hi
          cases i with
          | zero =>
            refine ⟨f, ca', s, by simp, ?_, h2, by simp⟩
            simp [analyzeFrom, h1]
          | succ j =>
            have hj : j < rest.length := by simpa using hi
            obtain ⟨g, ca'', p, hg, han, htr, hp⟩ := hidx j hj
            refine ⟨g, ca'', p, by simpa using hg, ?_, htr, by simpa using hp⟩
            simpa [List.take_succ_cons, analyzeFrom, h1] using han

theorem okLoopTrace_counts (fs : List LoweredFunc) : ∀ ca cg tr s,
    (buildGo ca cg fs tr).2 = Except.ok s →
    (okLoopTrace ca fs).countP isCaFinish = fs.length ∧
    (okLoopTrace ca fs).countP isCaAdd = fs.length ∧
    (okLoopTrace ca fs).countP isCgAdd = fs.length ∧
    (okLoopTrace ca fs).countP isCgFinish = 0 ∧
    (okLoopTrace ca fs).countP isLogWarning = 0 := by
  induction fs with
  | nil => intro ca cg tr s _; simp [okLoopTrace]
  | cons f rest ih =>
    intro ca cg tr s h
    cases h1 : ca.AddFunction f with
    | error e => rw [buildGo, h1] at h; simp at h
    | ok ca' =>
      cases h2 : cg.AddFunction f ca'.Finish with
      | error e => rw [buildGo, h1] at h; simp only [h2] at h; simp at h
      | ok cg' =>
        rw [buildGo, h1] at h
        simp only [h2] at h
        obtain ⟨c1, c2, c3, c4, c5⟩ := ih ca' cg' _ s h
        simp [okLoopTrace, h1, List.countP_cons, isCaFinish, isCaAdd, isCgAdd,
          isCgFinish, isLogWarning, c1, c2, c3, c4, c5]

theorem buildGo_ok_trace (fs : List LoweredFunc) : ∀ ca cg tr s,
    (buildGo ca cg fs tr).2 = Except.ok s →
    (buildGo ca cg fs tr).1
      = tr ++ okLoopTrace ca fs ++ [Event.cgFinish s, Event.logWarning warnMsg] := by
  induction fs with
  | nil =>
    intro ca cg tr s h
    simp only [buildGo, Except.ok.injEq] at h
    simp [buildGo, okLoopTrace, h]
  | cons f rest ih =>
    intro ca cg tr s h
    cases h1 : ca.AddFunction f with
    | error e => rw [buildGo, h1] at h; simp at h
    | ok ca' =>
      cases h2 : cg.AddFunction f ca'.Finish with
      | error e => rw [buildGo, h1] at h; simp only [h2] at h; simp at h
      | ok cg' =>
        rw [buildGo, h1] at h
        simp only [h2] at h
        have htr := ih ca' cg'
          (tr ++ [Event.caAdd f, Event.caFinish ca'.Finish, Event.cgAdd f ca'.Finish]) s h
        rw [buildGo, h1]
        simp only [h2]
        rw [htr]
        simp [okLoopTrace, h1]

theorem buildGo_diag (fs : List LoweredFunc) : ∀ ca cg tr,
    (buildGo ca cg fs tr).1.countP isLogWarning
      = tr.countP isLogWarning + (if isOkB (buildGo ca cg fs tr).2 then 1 else 0) := by
  induction fs with
  | nil =>
    intro ca cg tr
    simp [buildGo, isOkB, List.countP_append, List.countP_cons, isLogWarning]
  | cons f rest ih =>
    intro ca cg tr
    rw [buildGo]
    cases h1 : ca.AddFunction f with
    | error e => simp [isOkB, List.countP_append, List.countP_cons, isLogWarning]
    | ok ca' =>
      cases h2 : cg.AddFunction f ca'.Finish with
      | error e =>
        simp only [h2]
        simp [isOkB, List.countP_append, List.countP_cons, isLogWarning]
      | ok cg' =>
        simp only [h2]
        rw [ih ca' cg' (tr ++ [Event.caAdd f, Event.caFinish ca'.Finish, Event.cgAdd f ca'.Finish])]
        simp [List.countP_append, List.countP_cons, isLogWarning]

theorem buildGo_cgAdd (fs : List LoweredFunc) : ∀ ca cg i f m,
    (cgAddEvents (buildGo ca cg fs []).1)[i]? = some (f, m) →
    fs[i]? = some f ∧
      ∃ ca', analyzeFrom ca (fs.take (i+1)) = Except.ok ca' ∧ m = ca'.Finish := by
  induction fs with
  | nil =>
    intro ca cg i f m h
    simp [buildGo, cgAddEvents] at h
  | cons f0 rest ih =>
    intro ca cg i f m h
    rw [buildGo] at h
    cases h1 : ca.AddFunction f0 with
    | error e => rw [h1] at h; simp [cgAddEvents] at h
    | ok ca' =>
      rw [h1] at h
      cases h2 : cg.AddFunction f0 ca'.Finish with
      | error e => simp only [h2] at h; simp [cgAddEvents] at h
      | ok cg' =>
        simp only [h2] at h
        rw [buildGo_append rest ca' cg'
          ([] ++ [Event.caAdd f0, Event.caFinish ca'.Finish, Event.cgAdd f0 ca'.Finish])] at h
        simp only [List.nil_append] at h
        rw [show cgAddEvents ([Event.caAdd f0, Event.caFinish ca'.Finish,
            Event.cgAdd f0 ca'.Finish] ++ (buildGo ca' cg' rest []).1)
          = (f0, ca'.Finish) :: cgAddEvents (buildGo ca' cg' rest []).1 from by
            simp [cgAddEvents, List.filterMap_append, List.filterMap_cons]] at h
        cases i with
        | zero =>
          simp only [List.getElem?_cons_zero, Option.some.injEq, Prod.mk.injEq] at h
          obtain ⟨hf, hm⟩ := h
          subst hf
          subst hm
          exact ⟨by simp, ca', by simp [List.take_succ_cons, analyzeFrom, h1], rfl⟩
        | succ j =>
          simp only [List.getElem?_cons_succ] at h
          obtain ⟨hg, ca'', han, hm⟩ := ih ca' cg' j f m h
          refine ⟨by simpa using hg, ca'', ?_, hm⟩
          simpa [List.take_succ_cons, analyzeFrom, h1] using han

/-- A sample 32-bit integer-like type. -/
def tInt : Ty := ⟨0, 32, 1⟩

/-- A sample 32-bit float-like type, incompatible with `tInt`. -/
def tFloat : Ty := ⟨2, 32, 1⟩

/-- Sample function: one argument `x : tInt`, translatable body. -/
def sampleA : LoweredFunc := ⟨"fa", [("x", tInt)], [Constr.supported "a;"]⟩

/-- Sample function sharing argument identity `x` with `sampleA` at the
same type. -/
def sampleB : LoweredFunc := ⟨"fb", [("x", tInt)], [Constr.supported "b;"]⟩

/-- Sample function using argument identity `x` at an incompatible
type. -/
def sampleCon : LoweredFunc := ⟨"fc", [("x", tFloat)], [Constr.supported "c;"]⟩

/-- Sample function whose body holds an untranslatable construct. -/
def sampleU : LoweredFunc := ⟨"fu", [], [Constr.unsupported "vld"]⟩

/-- Sample function with no arguments and a translatable body. -/
def sampleN : LoweredFunc := ⟨"fn", [], [Constr.supported "n;"]⟩

/-- Claim C1, as stated, is false: on a build that fails (here: one
function with an untranslatable construct) the advisory diagnostic is
not emitted at all, because the source logs the warning only after the
loop completes and an uncaught collaborator failure unwinds past it. -/
theorem C1_counterexample :
    (BuildRV64PPAC [sampleU]).1.countP isLogWarning ≠ 1 ∧
    isOkB (BuildRV64PPAC [sampleU]).2 = false := by
  decide

/-- Claim C1 (amended): on every invocation that runs to completion the
advisory diagnostic is emitted exactly once, regardless of the number of
functions; on an invocation that fails it is emitted zero times. -/
theorem C1_diag_on_completion (funcs : List LoweredFunc) :
    (BuildRV64PPAC funcs).1.countP isLogWarning
      = if isOkB (BuildRV64PPAC funcs).2 then 1 else 0 := by
  have hd := buildGo_diag funcs ⟨[]⟩ ⟨""⟩ []
  simpa [BuildRV64PPAC] using hd

/-- Claim C2: the driver performs no catch, recovery or retry: an
Analyzer failure on some function aborts the build at once with exactly
that failure (wrapped in the build-error sum unchanged) and an
untouched Generator, and a Generator failure likewise; in either case
the result carries no text — not even the partial text accumulated so
far — and the remaining functions are never processed. -/
theorem C2_failure_propagates (ca : CodeAnalysis) (cg : CodeGenRV64PPAC)
    (tr : List Event) (f : LoweredFunc) (rest : List LoweredFunc) :
    (∀ e, ca.AddFunction f = Except.error e →
      buildGo ca cg (f :: rest) tr
        = (tr ++ [Event.caAdd f], Except.error (BuildErr.analyzer e))) ∧
    (∀ ca' e, ca.AddFunction f = Except.ok ca' →
      cg.AddFunction f ca'.Finish = Except.error e →
      buildGo ca cg (f :: rest) tr
        = (tr ++ [Event.caAdd f, Event.caFinish ca'.Finish],
           Except.error (BuildErr.generator e))) := by
  constructor
  · intro e he
    rw [buildGo, he]
  · intro ca' e h1 h2
    rw [buildGo, h1]
    simp only [h2]

theorem C2_witness :
    buildGo ⟨[("x", tInt)]⟩ ⟨""⟩ [sampleCon] []
      = ([Event.caAdd sampleCon],
         Except.error (BuildErr.analyzer (AnalyzerErr.inconsistentArgType "x"))) := by
  have h := (C2_failure_propagates ⟨[("x", tInt)]⟩ ⟨""⟩ [] sampleCon []).1
    (AnalyzerErr.inconsistentArgType "x") (by rfl)
  simpa using h

/-- Claim C3: the type map handed to the Generator's `AddFunction` for
the `i`-th function is exactly the Analyzer's `Finish` snapshot taken
right after registering that function, i.e. the analysis of functions
`0..i` alone; consequently two function sets agreeing on their first
`i+1` functions hand the Generator the same map at position `i`, so no
later function ever influences it. -/
theorem C3_snapshot (funcs : List LoweredFunc) (i : Nat) (f : LoweredFunc)
    (m : List (String × Ty))
    (h : (cgAddEvents (BuildRV64PPAC funcs).1)[i]? = some (f, m)) :
    (funcs[i]? = some f ∧
      ∃ ca', analyzeFrom ⟨[]⟩ (funcs.take (i+1)) = Except.ok ca' ∧ m = ca'.Finish) ∧
    ∀ funcs' f' m', funcs'.take (i+1) = funcs.take (i+1) →
      (cgAddEvents (BuildRV64PPAC funcs').1)[i]? = some (f', m') → m' = m := by
  have h1 := buildGo_cgAdd funcs ⟨[]⟩ ⟨""⟩ i f m h
  refine ⟨h1, ?_⟩
  intro funcs' f' m' hpre h'
  obtain ⟨-, ca1, han1, hm1⟩ := h1
  obtain ⟨-, ca2, han2, hm2⟩ := buildGo_cgAdd funcs' ⟨[]⟩ ⟨""⟩ i f' m' h'
  rw [hpre, han1] at han2
  cases han2
  rw [hm1, hm2]

theorem C3_witness :
    (([sampleA, sampleB][1]? = some sampleB ∧
      ∃ ca', analyzeFrom ⟨[]⟩ ([sampleA, sampleB].take (1+1)) = Except.ok ca' ∧
        [("x", tInt)] = ca'.Finish) ∧
    ∀ funcs' f' m', funcs'.take (1+1) = [sampleA, sampleB].take (1+1) →
      (cgAddEvents (BuildRV64PPAC funcs').1)[1]? = some (f', m') →
        m' = [("x", tInt)]) :=
  C3_snapshot [sampleA, sampleB] 1 sampleB [("x", tInt)] (by decide)

/-- Claim C4: the generated text buffer is append-only and ordered: on
every successful build the returned text is the in-order concatenation
of one piece per function, where the `i`-th piece is the translation of
function `i` under its snapshot type map — so function `i`'s text sits
strictly after function `i-1`'s, with no interleaving or reordering. -/
theorem C4_ordered_append (funcs : List LoweredFunc) (s : String)
    (h : (BuildRV64PPAC funcs).2 = Except.ok s) :
    ∃ ps, specPieces ⟨[]⟩ funcs = Except.ok ps ∧ s = String.join ps ∧
      ps.length = funcs.length ∧
      ∀ i, i < funcs.length →
        ∃ f ca' p, funcs[i]? = some f ∧
          analyzeFrom ⟨[]⟩ (funcs.take (i+1)) = Except.ok ca' ∧
          translateFunc f ca'.Finish = Except.ok p ∧ ps[i]? = some p := by
  have hs := buildGo_spec funcs ⟨[]⟩ ⟨""⟩ []
  rw [BuildRV64PPAC] at h
  rw [h] at hs
  cases h3 : specPieces ⟨[]⟩ funcs with
  | error e => rw [h3] at hs; simp [Except.map] at hs
  | ok ps =>
    rw [h3] at hs
    simp only [Except.map, Except.ok.injEq] at hs
    obtain ⟨hlen, hidx⟩ := specPieces_ok funcs ⟨[]⟩ ps h3
    exact ⟨ps, rfl, by simpa [String.empty_append] using hs, hlen, hidx⟩

theorem C4_witness :
    ∃ ps, specPieces ⟨[]⟩ [sampleA, sampleB] = Except.ok ps ∧
      "void fa(t0_32x1 x, )\na;end fa\nvoid fb(t0_32x1 x, )\nb;end fb\n"
        = String.join ps ∧
      ps.length = [sampleA, sampleB].length ∧
      ∀ i, i < [sampleA, sampleB].length →
        ∃ f ca' p, [sampleA, sampleB][i]? = some f ∧
          analyzeFrom ⟨[]⟩ ([sampleA, sampleB].take (i+1)) = Except.ok ca' ∧
          translateFunc f ca'.Finish = Except.ok p ∧ ps[i]? = some p :=
  C4_ordered_append [sampleA, sampleB]
    "void fa(t0_32x1 x, )\na;end fa\nvoid fb(t0_32x1 x, )\nb;end fb\n" (by rfl)

/-- Claim C5: on the empty function set the build succeeds — no
Analyzer or Generator failure — and the returned text is the empty
string (the trace shows only the Generator's `Finish` and the advisory
warning). -/
theorem C5_empty_ok :
    BuildRV64PPAC []
      = ([Event.cgFinish "", Event.logWarning warnMsg], Except.ok "") := by
  rfl

/-- Claim C6: the driver is a deterministic pure function of the
function set: each invocation starts from a fresh Analyzer and a fresh
Generator and shares no state, so two runs on the identical input
produce byte-identical traces and byte-identical output text. -/
theorem C6_deterministic (funcs funcs2 : List LoweredFunc) (h : funcs = funcs2) :
    BuildRV64PPAC funcs = buildGo ⟨[]⟩ ⟨""⟩ funcs [] ∧
    BuildRV64PPAC funcs = BuildRV64PPAC funcs2 ∧
    (BuildRV64PPAC funcs).2 = (BuildRV64PPAC funcs2).2 := by
  subst h
  exact ⟨rfl, rfl, rfl⟩

theorem C6_witness :
    BuildRV64PPAC [sampleA, sampleB] = buildGo ⟨[]⟩ ⟨""⟩ [sampleA, sampleB] [] ∧
    BuildRV64PPAC [sampleA, sampleB] = BuildRV64PPAC [sampleA, sampleB] ∧
    (BuildRV64PPAC [sampleA, sampleB]).2 = (BuildRV64PPAC [sampleA, sampleB]).2 :=
  C6_deterministic [sampleA, sampleB] [sampleA, sampleB] rfl

/-- Claim C7: on success the driver's sole result is exactly the text
of the Generator's `Finish` taken after all functions were added: the
trace ends with that `Finish` (whose text equals the returned string)
followed by the advisory diagnostic, and the loop part of the trace
contains no `Finish` of the Generator and no diagnostic — the
diagnostic is not part of the returned value and changes neither the
control flow nor the text. -/
theorem C7_sole_result (funcs : List LoweredFunc) (s : String)
    (h : (BuildRV64PPAC funcs).2 = Except.ok s) :
    (BuildRV64PPAC funcs).1
      = okLoopTrace ⟨[]⟩ funcs ++ [Event.cgFinish s, Event.logWarning warnMsg] ∧
    (okLoopTrace ⟨[]⟩ funcs).countP isCgFinish = 0 ∧
    (okLoopTrace ⟨[]⟩ funcs).countP isLogWarning = 0 := by
  have ht := buildGo_ok_trace funcs ⟨[]⟩ ⟨""⟩ [] s h
  have hc := okLoopTrace_counts funcs ⟨[]⟩ ⟨""⟩ [] s h
  exact ⟨by simpa [BuildRV64PPAC] using ht, hc.2.2.2.1, hc.2.2.2.2⟩

theorem C7_witness :
    (BuildRV64PPAC [sampleN]).1
      = okLoopTrace ⟨[]⟩ [sampleN]
          ++ [Event.cgFinish "void fn()\nn;end fn\n", Event.logWarning warnMsg] ∧
    (okLoopTrace ⟨[]⟩ [sampleN]).countP isCgFinish = 0 ∧
    (okLoopTrace ⟨[]⟩ [sampleN]).countP isLogWarning = 0 :=
  C7_sole_result [sampleN] "void fn()\nn;end fn\n" (by rfl)

/-- Claim C8: for a single function with no arguments the Analyzer can
never raise an inconsistent-argument-type failure, and whenever the
function's translation under the empty type mapping exists, the build
succeeds and returns exactly that translation. -/
theorem C8_single_no_args (f : LoweredFunc) (h : f.args = []) :
    (∀ e, (BuildRV64PPAC [f]).2 ≠ Except.error (BuildErr.analyzer e)) ∧
    ∀ s, translateFunc f ([] : List (String × Ty)) = Except.ok s →
      (BuildRV64PPAC [f]).2 = Except.ok s := by
  have hadd : CodeAnalysis.AddFunction ⟨[]⟩ f = Except.ok ⟨[]⟩ := by
    simp [CodeAnalysis.AddFunction, h, mergeArgs, Except.map]
  have hfin : CodeAnalysis.Finish ⟨[]⟩ = ([] : List (String × Ty)) := rfl
  constructor
  · intro e
    rw [BuildRV64PPAC, buildGo, hadd]
    simp only [CodeGenRV64PPAC.AddFunction, hfin]
    cases h2 : translateFunc f ([] : List (String × Ty)) with
    | error e2 => simp
    | ok s => simp [buildGo]
  · intro s hs
    rw [BuildRV64PPAC, buildGo, hadd]
    simp only [CodeGenRV64PPAC.AddFunction, hfin, hs]
    simp [buildGo, CodeGenRV64PPAC.Finish, String.empty_append]

theorem C8_witness :
    sampleN.args = [] ∧ (BuildRV64PPAC [sampleN]).2 = Except.ok "void fn()\nn;end fn\n" :=
  ⟨rfl, (C8_single_no_args sampleN rfl).2 "void fn()\nn;end fn\n" (by rfl)⟩

/-- Claim C9: on the empty function set the driver registers nothing
with the Analyzer, never asks for its map, never adds a function to the
Generator; its only collaborator operation is one `Finish` on the
freshly created Generator, whose (empty) text is returned unchanged. -/
theorem C9_empty_trace :
    (BuildRV64PPAC []).1.countP isCaAdd = 0 ∧
    (BuildRV64PPAC []).1.countP isCaFinish = 0 ∧
    (BuildRV64PPAC []).1.countP isCgAdd = 0 ∧
    (BuildRV64PPAC []).1.countP isCgFinish = 1 ∧
    (BuildRV64PPAC []).1
      = [Event.cgFinish (CodeGenRV64PPAC.Finish ⟨""⟩), Event.logWarning warnMsg] ∧
    (BuildRV64PPAC []).2 = Except.ok (CodeGenRV64PPAC.Finish ⟨""⟩) :=
  ⟨rfl, rfl, rfl, rfl, rfl, rfl⟩

/-- Claim C10: on every run that completes, the Analyzer's `Finish` is
called exactly once per function — between that function's registration
and the next function's, as the loop-trace shape shows — and never
after the loop, while the Generator's `Finish` is called exactly once,
after the last function. -/
theorem C10_finish_discipline (funcs : List LoweredFunc) (s : String)
    (h : (BuildRV64PPAC funcs).2 = Except.ok s) :
    (BuildRV64PPAC funcs).1
      = okLoopTrace ⟨[]⟩ funcs ++ [Event.cgFinish s, Event.logWarning warnMsg] ∧
    (BuildRV64PPAC funcs).1.countP isCaFinish = funcs.length ∧
    (BuildRV64PPAC funcs).1.countP isCgFinish = 1 := by
  have ht := buildGo_ok_trace funcs ⟨[]⟩ ⟨""⟩ [] s h
  have hc := okLoopTrace_counts funcs ⟨[]⟩ ⟨""⟩ [] s h
  have ht' : (BuildRV64PPAC funcs).1
      = okLoopTrace ⟨[]⟩ funcs ++ [Event.cgFinish s, Event.logWarning warnMsg] := by
    simpa [BuildRV64PPAC] using ht
  refine ⟨ht', ?_, ?_⟩
  · rw [ht']
    simp [List.countP_append, List.countP_cons, isCaFinish, hc.1]
  · rw [ht']
    simp [List.countP_append, List.countP_cons, isCgFinish, hc.2.2.2.1]

theorem C10_witness :
    (BuildRV64PPAC [sampleA, sampleB]).1
      = okLoopTrace ⟨[]⟩ [sampleA, sampleB]
          ++ [Event.cgFinish
                "void fa(t0_32x1 x, )\na;end fa\nvoid fb(t0_32x1 x, )\nb;end fb\n",
              Event.logWarning warnMsg] ∧
    (BuildRV64PPAC [sampleA, sampleB]).1.countP isCaFinish = [sampleA, sampleB].length ∧
    (BuildRV64PPAC [sampleA, sampleB]).1.countP isCgFinish = 1 :=
  C10_finish_discipline [sampleA, sampleB]
    "void fa(t0_32x1 x, )\na;end fa\nvoid fb(t0_32x1 x, )\nb;end fb\n" (by rfl)
